import Mathlib

/-!
Verification of the flight-sequencing state machine of novafc-software.

The Rust sources embedded here are `src/common/src/state_machine/mod.rs`
(the sequencing engine) and `src/common/src/data-format/mod.rs` (the value
and condition model).  `f32` values (seconds, altitudes, bounds) enter the
engine only through order comparisons, so they are modelled as rationals
(`Rat`), which keeps every definition executable and every comparison
decidable.  Rust panics (`panic!`, `unreachable!`) are modelled as
`Except.error` with the panic message; all engine operations that can
panic return `Except String _`.

The `data_format::reference` module (graph construction) and the
`traits::Timestamp` clock are not part of the provided sources; where the
claims need them they are modelled from the spec, with a doc comment
saying so.  Following the spec's design note, the cyclic state graph is
represented as an arena (`Graph`) of `State` records, with transitions
stored as indices into that arena, and each command's mutable one-shot
cell (`was_executed: Cell<bool>`) is represented as a flag table indexed
by (state index, command index) carried in the machine state.
-/

/-- Rust `Seconds(pub f32)` and every other `f32`: modelled as `Rat`. -/
abbrev Seconds := Rat

/-- data-format: `pub struct NativeFlagCondition(pub bool);` -/
structure NativeFlagCondition where
  val : Bool
deriving DecidableEq, Repr

/-- data-format: `pub struct PyroContinuityCondition(pub bool);` -/
structure PyroContinuityCondition where
  val : Bool
deriving DecidableEq, Repr

/-- data-format: `pub enum FloatCondition`.  The `Between` constructor
carries its fields in the source's declaration order: first
`upper_bound`, then `lower_bound`. -/
inductive FloatCondition where
  | GreaterThan (expected : Rat)
  | LessThan (expected : Rat)
  | Between (upper_bound : Rat) (lower_bound : Rat)
deriving DecidableEq, Repr

/-- data-format: `pub enum CheckData`. -/
inductive CheckData where
  | Altitude (condition : FloatCondition)
  | ApogeeFlag (condition : NativeFlagCondition)
  | Pyro1Continuity (condition : PyroContinuityCondition)
  | Pyro2Continuity (condition : PyroContinuityCondition)
  | Pyro3Continuity (condition : PyroContinuityCondition)
deriving DecidableEq, Repr

/-- data-format: `pub enum CheckKind`, the name of the quantity a check
reads from the data workspace. -/
inductive CheckKind where
  | Altitude
  | ApogeeFlag
  | Pyro1Continuity
  | Pyro2Continuity
  | Pyro3Continuity
deriving DecidableEq, Repr

/-- data-format: `pub enum ObjectState`, the tagged value a check receives
from the data workspace (the state-machine source spells the boolean
variant `Bool` where the data-format source spells it `Flag`; it is the
same single boolean variant). `Short(u16)` is modelled with `Nat`. -/
inductive ObjectState where
  | Flag (b : Bool)
  | Float (x : Rat)
  | Short (n : Nat)
deriving DecidableEq, Repr

/-- data-format: `pub enum CommandObject`, the actuator target of a command. -/
inductive CommandObject where
  | Pyro1 (b : Bool)
  | Pyro2 (b : Bool)
  | Pyro3 (b : Bool)
  | Beacon (b : Bool)
  | DataRate (n : Nat)
deriving DecidableEq, Repr

/-- data-format: `pub const MAX_STATES: usize = 16;` -/
def MAX_STATES : Nat := 16

/-- data-format: `pub const MAX_CHECKS_PER_STATE: usize = 3;` -/
def MAX_CHECKS_PER_STATE : Nat := 3

/-- data-format: `pub const MAX_COMMANDS_PER_STATE: usize = 3;` -/
def MAX_COMMANDS_PER_STATE : Nat := 3

/-- Modelled from the spec: `CheckData::kind` lives in the data-format
crate's modules that are not among the provided sources; per the spec a
Check "binds a Condition to a named Quantity", so each check datum names
the quantity (CheckKind) it tests. -/
def CheckData.kind : CheckData → CheckKind
  | .Altitude _ => .Altitude
  | .ApogeeFlag _ => .ApogeeFlag
  | .Pyro1Continuity _ => .Pyro1Continuity
  | .Pyro2Continuity _ => .Pyro2Continuity
  | .Pyro3Continuity _ => .Pyro3Continuity

/-- Modelled from the spec: `data_format::reference::StateTransition`
(module not among the provided sources).  Per the spec it is "a tagged
choice between a normal Transition and an Abort; both carry the
destination State"; destinations are stored as indices into the static
graph arena, following the spec's design note. -/
inductive StateTransition where
  | Abort (dest : Nat)
  | Transition (dest : Nat)
deriving DecidableEq, Repr

/-- Destination state of either transition flavour. -/
def StateTransition.dest : StateTransition → Nat
  | .Abort s => s
  | .Transition s => s

/-- Modelled from the spec: `data_format::reference::Check` (module not
among the provided sources): "binds a Condition to a named Quantity ...
plus an optional transition to take when satisfied".  The condition and
quantity name are both carried by `data : CheckData` exactly as the
engine source uses them (`check.data`, `check.data.kind()`,
`check.transition`). -/
structure Check where
  data : CheckData
  transition : Option StateTransition
deriving DecidableEq, Repr

/-- Modelled from the spec: `data_format::reference::Command` (module not
among the provided sources): "binds an actuator target to a delay
(seconds since the state was entered) and a one-shot completion flag".
The engine source uses `command.object`, `command.delay` and
`command.was_executed`; the mutable `was_executed` cell is carried in
`StateMachine.flags`, not here. -/
structure Command where
  object : CommandObject
  delay : Seconds
deriving DecidableEq, Repr

/-- state-machine source: `pub struct Timeout` — a duration plus the
transition to take when it elapses. -/
structure Timeout where
  time : Seconds
  transition : StateTransition
deriving DecidableEq, Repr

/-- Modelled from the spec: `data_format::reference::State` (module not
among the provided sources): "an identifier, a bounded list of Checks
(≤3), a bounded list of Commands (≤3), and an optional Timeout".  The
engine source uses `state.id`, `state.checks`, `state.commands` and
`state.timeout.get()`. -/
structure State where
  id : Nat
  checks : List Check
  commands : List Command
  timeout : Option Timeout
deriving DecidableEq, Repr

instance : Inhabited State := ⟨⟨0, [], [], none⟩⟩

/-- Modelled from the spec: the static, program-lifetime state graph — "a
fixed-size arena of State records with transitions stored as indices into
that arena" (spec design note); `&'a State<'a>` references become indices
into `states`. -/
structure Graph where
  states : List State

/-- Dereference a state index into the arena (the model of following a
`&'a State<'a>` reference). -/
def Graph.stateAt (g : Graph) (i : Nat) : State :=
  g.states.getD i default

/-- The engine's mutable state (`pub struct StateMachine`): the current
state (as an arena index), the start time, the time of the last
transition, and the commands' `was_executed` cells gathered into a table
indexed by (state index, command index).  The `data_workspace` and
`controls` collaborator references are passed to each operation
instead. -/
structure StateMachine where
  current_state : Nat
  start_time : Rat
  last_transition_time : Rat
  flags : Nat → Nat → Bool

/-- The data-workspace collaborator, `get_object`: answers the current
`ObjectState` for a quantity. -/
abbrev DataWorkspace := CheckKind → ObjectState

/-- Point update of the `was_executed` table (the model of
`command.was_executed.set(b)` for the command cell at (s, i)). -/
def setFlag (flags : Nat → Nat → Bool) (s i : Nat) (b : Bool) : Nat → Nat → Bool :=
  fun s' i' => if s' = s ∧ i' = i then b else flags s' i'

/-- `StateMachine::new`: the source runs `let time = Timestamp::now();`
and then `panic!("fix time");` unconditionally, so the constructor
diverges before the `Self { .. }` expression is ever reached; the panic
is modelled as the error value. -/
def StateMachine.new (_begin_state : Nat) (_data_workspace : DataWorkspace)
    (_now : Rat) : Except String StateMachine :=
  Except.error "fix time"

/-- The `satisfied` match inside `StateMachine::execute_check`: evaluates
a check datum against the value the data workspace returned.  The
catch-all arm is `unreachable!("mismatched types while executing check
...")`, modelled as an error. -/
def checkSatisfied : CheckData → ObjectState → Except String Bool
  | .ApogeeFlag expected, .Flag actual => .ok (expected.val == actual)
  | .Altitude condition, .Float actual =>
      .ok (match condition with
        | .LessThan expected => decide (actual < expected)
        | .GreaterThan expected => decide (actual > expected)
        | .Between upper_bound lower_bound =>
            decide (actual ≥ upper_bound) && decide (actual ≤ lower_bound))
  | .Pyro1Continuity expected, .Flag actual => .ok (expected.val == actual)
  | .Pyro2Continuity expected, .Flag actual => .ok (expected.val == actual)
  | .Pyro3Continuity expected, .Flag actual => .ok (expected.val == actual)
  | _, _ => .error "mismatched types while executing check"

/-- `StateMachine::execute_check`: fetch the value for the check's
quantity from the data workspace, evaluate the condition, and return
`satisfied.then(|| check.transition).flatten()`. -/
def execute_check (data_workspace : DataWorkspace) (check : Check) :
    Except String (Option StateTransition) :=
  let value := data_workspace check.data.kind
  match checkSatisfied check.data value with
  | .error msg => .error msg
  | .ok satisfied => .ok (if satisfied then check.transition else none)

/-- `StateMachine::execute_command` on a single command cell: given the
elapsed time since the last transition and the command's `was_executed`
cell, returns the new cell value and the `controls.set` dispatch (if
any). -/
def execute_command (elapsed : Rat) (was_executed : Bool) (command : Command) :
    Bool × List CommandObject :=
  if !was_executed then
    if elapsed ≥ command.delay then (true, [command.object])
    else (was_executed, [])
  else (was_executed, [])

/-- The command loop of `StateMachine::execute_state`: run
`execute_command` over the state's commands in declared order, threading
the `was_executed` table and collecting the dispatches in order.  `i` is
the arena index of the next command's cell. -/
def runCommands (elapsed : Rat) (s : Nat) :
    (Nat → Nat → Bool) → Nat → List Command → (Nat → Nat → Bool) × List CommandObject
  | flags, _i, [] => (flags, [])
  | flags, i, command :: rest =>
    let fr := execute_command elapsed (flags s i) command
    let next := runCommands elapsed s (setFlag flags s i fr.1) (i + 1) rest
    (next.1, fr.2 ++ next.2)

/-- The check loop of `StateMachine::execute_state`: evaluate the checks
in declared order and return on the first one that yields a transition
(or propagate the first panic). -/
def runChecks (data_workspace : DataWorkspace) :
    List Check → Except String (Option StateTransition)
  | [] => .ok none
  | check :: rest =>
    match execute_check data_workspace check with
    | .error msg => .error msg
    | .ok (some transition) => .ok (some transition)
    | .ok none => runChecks data_workspace rest

/-- `StateMachine::execute_state`: run the commands, then the checks,
then the timeout branch.  In the source the timeout branch is
`panic!("")` — the elapsed-time comparison is commented out — so a state
that declares a timeout panics whenever no check produced a transition;
the panic is modelled as `.error ""`.  Returns the updated flag table,
the dispatches, and the selected transition (if any). -/
def execute_state (g : Graph) (data_workspace : DataWorkspace) (now : Rat)
    (m : StateMachine) :
    Except String ((Nat → Nat → Bool) × List CommandObject × Option StateTransition) :=
  let st := g.stateAt m.current_state
  let elapsed := now - m.last_transition_time
  let cr := runCommands elapsed m.current_state m.flags 0 st.commands
  match runChecks data_workspace st.checks with
  | .error msg => .error msg
  | .ok (some transition) => .ok (cr.1, cr.2, some transition)
  | .ok none =>
    match st.timeout with
    | some _timeout => .error ""
    | none => .ok (cr.1, cr.2, none)

/-- The diagnostic a transition prints (the `cfg(feature = "std")`
`println!` branches), as an event value: `Aborted` vs `Transitioned`,
carrying the destination. -/
inductive Diag where
  | Aborted (dest : Nat)
  | Transitioned (dest : Nat)
deriving DecidableEq, Repr

/-- `StateMachine::transition`: match on the transition flavour (each arm
yields its destination state and its diagnostic), then set the current
state and reset the last-transition time to now. -/
def StateMachine.transition (now : Rat) (m : StateMachine)
    (t : StateTransition) : StateMachine × Diag :=
  match t with
  | .Abort state =>
      ({ m with current_state := state, last_transition_time := now }, .Aborted state)
  | .Transition state =>
      ({ m with current_state := state, last_transition_time := now }, .Transitioned state)

/-- `StateMachine::execute` — one tick: run `execute_state`, and apply
the transition if one was selected.  Returns the machine after the tick
and the `controls.set` dispatches made during it. -/
def StateMachine.execute (g : Graph) (data_workspace : DataWorkspace)
    (now : Rat) (m : StateMachine) :
    Except String (StateMachine × List CommandObject) :=
  match execute_state g data_workspace now m with
  | .error msg => .error msg
  | .ok (flags, dispatches, otrans) =>
    let m1 : StateMachine := { m with flags := flags }
    match otrans with
    | some t => .ok ((StateMachine.transition now m1 t).1, dispatches)
    | none => .ok (m1, dispatches)

/-- The caller's scheduler loop: drive `execute` once per tick at the
given clock instants, collecting each tick's dispatches. -/
def runTicks (g : Graph) (data_workspace : DataWorkspace) :
    List Rat → StateMachine → Except String (List (List CommandObject) × StateMachine)
  | [], m => .ok ([], m)
  | now :: rest, m =>
    match StateMachine.execute g data_workspace now m with
    | .error msg => .error msg
    | .ok (m', d) =>
      match runTicks g data_workspace rest m' with
      | .error msg => .error msg
      | .ok (ds, mf) => .ok (d :: ds, mf)

/-- Modelled from the spec: construction of the state graph
(`data_format::reference`, not among the provided sources) uses
fixed-capacity collections sized by `MAX_STATES`,
`MAX_CHECKS_PER_STATE` and `MAX_COMMANDS_PER_STATE`; "violating it is a
build-time/construction-time failure", so construction yields `none`
when a capacity ceiling is exceeded and never truncates. -/
def mkGraph (states : List State) : Option Graph :=
  if states.length ≤ MAX_STATES ∧
      ∀ st ∈ states, st.checks.length ≤ MAX_CHECKS_PER_STATE ∧
        st.commands.length ≤ MAX_COMMANDS_PER_STATE
  then some ⟨states⟩ else none

/-! Concrete scenario: a single state 0 with one delay-0 Beacon command
and one always-satisfied check whose transition loops back into state 0
(a cyclic transition), driven by a workspace whose apogee flag is set. -/

def loopCheck : Check := ⟨CheckData.ApogeeFlag ⟨true⟩, some (StateTransition.Transition 0)⟩

def loopCommand : Command := ⟨CommandObject.Beacon true, 0⟩

def loopState : State := ⟨0, [loopCheck], [loopCommand], none⟩

def loopGraph : Graph := ⟨[loopState]⟩

def wsFlagTrue : DataWorkspace := fun _ => ObjectState.Flag true

def machine0 : StateMachine := ⟨0, 0, 0, fun _ _ => false⟩

/-- The machine after the first tick of the loop scenario: the cyclic
transition back into state 0 has been applied, and the command's
`was_executed` cell at (0, 0) is set. -/
def loopM1 : StateMachine := ⟨0, 0, 0, setFlag (fun _ _ => false) 0 0 true⟩

/-- Claim C1: the claim states that an interval Condition is satisfied
iff `lower_bound <= value <= upper_bound`.  The source instead compares
`actual >= upper_bound && actual <= lower_bound`: at `upper_bound = 10`,
`lower_bound = 0`, value `5` lies inside the closed interval yet the
evaluation returns `false`, and with the two bounds swapped it returns
`true` for a value the claim rejects.  This refutes the claim as stated;
per the spec's own design note the closed-interval reading is the
intent, so the code is the bug. -/
theorem interval_condition_inverted :
    checkSatisfied (CheckData.Altitude (FloatCondition.Between 10 0)) (ObjectState.Float 5)
      = Except.ok false
    ∧ ((0:Rat) ≤ 5 ∧ (5:Rat) ≤ 10)
    ∧ checkSatisfied (CheckData.Altitude (FloatCondition.Between 0 10)) (ObjectState.Float 5)
      = Except.ok true
    ∧ ¬ ((10:Rat) ≤ 5 ∧ (5:Rat) ≤ 0) := by
  refine ⟨by simp [checkSatisfied], by norm_num, ?_, by norm_num⟩
  simp [checkSatisfied]
  norm_num

/-- Claim C2: the claim states that applying a transition into a state
resets the one-shot flags of that state's commands.  In the source,
`StateMachine::transition` only sets `current_state` and
`last_transition_time`; no flag is ever cleared.  Concretely: the first
tick dispatches the delay-0 command and takes the cyclic transition
back into state 0, yet in the resulting machine the command's flag at
(0, 0) is still set, and the next tick of the re-entered state
dispatches nothing. -/
theorem transition_does_not_reset_flags :
    StateMachine.execute loopGraph wsFlagTrue 0 machine0
      = Except.ok (loopM1, [CommandObject.Beacon true])
    ∧ loopM1.current_state = 0
    ∧ loopM1.flags 0 0 = true
    ∧ (StateMachine.execute loopGraph wsFlagTrue 1 loopM1).map Prod.snd = Except.ok [] := by
  refine ⟨?_, rfl, by simp [loopM1, setFlag], ?_⟩
  · simp [StateMachine.execute, execute_state, runCommands, execute_command, runChecks,
      execute_check, checkSatisfied, Graph.stateAt, loopGraph, loopState, loopCheck,
      loopCommand, wsFlagTrue, machine0, loopM1, CheckData.kind, StateMachine.transition]
  · simp [StateMachine.execute, execute_state, runCommands, execute_command, runChecks,
      execute_check, checkSatisfied, Graph.stateAt, loopGraph, loopState, loopCheck,
      loopCommand, wsFlagTrue, loopM1, CheckData.kind, StateMachine.transition, setFlag,
      Except.map]

/-! Concrete scenario for the timeout branch: state 0 declares a 5-second
Timeout into state 1 and has no checks and no commands. -/

def toutGraph : Graph :=
  ⟨[⟨0, [], [], some ⟨5, StateTransition.Transition 1⟩⟩, ⟨1, [], [], none⟩]⟩

/-- Claim C3: the claim states that once the state's Timeout duration has
elapsed and no check fired, the tick applies the timeout's transition.
In the source the whole timeout branch is the stub `panic!("")` (the
elapsed-time comparison is commented out), so the tick panics instead:
at a tick 5 seconds after the last transition — exactly the timeout
duration — `execute` returns the panic, not a transition into state 1. -/
theorem timeout_tick_panics_instead_of_transition :
    ((5:Rat) - machine0.last_transition_time ≥ 5)
    ∧ StateMachine.execute toutGraph wsFlagTrue 5 machine0 = Except.error "" := by
  constructor
  · norm_num [machine0]
  · simp [StateMachine.execute, execute_state, runCommands, runChecks, Graph.stateAt,
      toutGraph, machine0]

/-- Claim C4: `StateMachine::new` reads the clock and then immediately
runs `panic!("fix time")`, so for every initial state, data workspace
and clock value the constructor diverges and no `StateMachine` value is
ever produced by it. -/
theorem new_always_panics (begin_state : Nat) (data_workspace : DataWorkspace) (now : Rat) :
    StateMachine.new begin_state data_workspace now = Except.error "fix time" := rfl

/-! Concrete scenario for the no-op claim: state 0 declares a 10-second
Timeout (far from elapsed) and nothing else. -/

def pendGraph : Graph := ⟨[⟨0, [], [], some ⟨10, StateTransition.Transition 0⟩⟩]⟩

/-- Claim C7: the claim states that a tick where no check is satisfied
and no timeout has elapsed leaves the machine unchanged.  Because the
timeout branch of the source is the stub `panic!("")`, any state that
declares a Timeout panics on such a tick instead of being a no-op: here
only 1 second of a 10-second timeout has elapsed, no check exists to be
satisfied, and `execute` panics. -/
theorem tick_with_pending_timeout_panics_instead_of_noop :
    ((1:Rat) - machine0.last_transition_time < 10)
    ∧ StateMachine.execute pendGraph wsFlagTrue 1 machine0 = Except.error "" := by
  constructor
  · norm_num [machine0]
  · simp [StateMachine.execute, execute_state, runCommands, runChecks, Graph.stateAt,
      pendGraph, machine0]

/-- Claim C9: the two transition flavours are mechanically identical:
applied at the same instant to the same machine with the same
destination, `Abort` and `Transition` produce the same engine state
(same current state, same reset of the last-transition time, same
flags); they differ only in the diagnostic they emit. -/
theorem abort_and_transition_same_mechanics (now : Rat) (m : StateMachine) (s : Nat) :
    (StateMachine.transition now m (StateTransition.Abort s)).1
      = (StateMachine.transition now m (StateTransition.Transition s)).1
    ∧ (StateMachine.transition now m (StateTransition.Abort s)).2 = Diag.Aborted s
    ∧ (StateMachine.transition now m (StateTransition.Transition s)).2 = Diag.Transitioned s :=
  ⟨rfl, rfl, rfl⟩

/-- The kind contract of `execute_check`'s match: the pairs of check
datum and workspace value the source's match arms accept.  `ApogeeFlag`
and the three pyro-continuity checks expect the boolean variant,
`Altitude` expects the float variant; every other pairing falls into the
`unreachable!` arm. -/
def kindMatches : CheckData → ObjectState → Bool
  | .ApogeeFlag _, .Flag _ => true
  | .Altitude _, .Float _ => true
  | .Pyro1Continuity _, .Flag _ => true
  | .Pyro2Continuity _, .Flag _ => true
  | .Pyro3Continuity _, .Flag _ => true
  | _, _ => false

/-- Claim C8: whenever the data workspace returns a value whose kind does
not match the kind the check's condition expects, `execute_check` hits
the `unreachable!` arm and traps with the mismatched-types panic — it
neither returns a result nor coerces the value. -/
theorem mismatched_kind_traps (data_workspace : DataWorkspace) (check : Check)
    (h : kindMatches check.data (data_workspace check.data.kind) = false) :
    execute_check data_workspace check
      = Except.error "mismatched types while executing check" := by
  unfold execute_check
  revert h
  cases hv : data_workspace check.data.kind <;> cases hd : check.data <;>
    simp [kindMatches, checkSatisfied]

/-- Witness for C8: an altitude check served a boolean flag value traps. -/
theorem mismatched_kind_traps_witness :
    execute_check (fun _ => ObjectState.Flag false)
        ⟨CheckData.Altitude (FloatCondition.GreaterThan 0), none⟩
      = Except.error "mismatched types while executing check" :=
  mismatched_kind_traps _ _ rfl

/-- Helper: a prefix of checks none of which yields a transition does not
affect the result of scanning the whole list. -/
theorem runChecks_append (ws : DataWorkspace) (pre rest : List Check)
    (h : runChecks ws pre = Except.ok none) :
    runChecks ws (pre ++ rest) = runChecks ws rest := by
  induction pre with
  | nil => simp
  | cons c cs ih =>
    rw [List.cons_append]
    cases hc : execute_check ws c with
    | error msg => simp [runChecks, hc] at h
    | ok o =>
      cases o with
      | none =>
        simp only [runChecks, hc] at h ⊢
        exact ih h
      | some t => simp [runChecks, hc] at h

/-- Claim C5: if the current state's checks split as `pre ++ c :: suf`
where no check of `pre` yields a transition and `c` is satisfied and
carries transition `t`, then the tick takes `t`: the machine moves to
`t`'s destination and resets the last-transition time.  The conclusion
holds for an arbitrary suffix `suf` — including one whose checks would
trap if evaluated — so the checks after the first satisfied
transition-carrying check are not evaluated in that tick. -/
theorem first_satisfied_check_wins (g : Graph) (ws : DataWorkspace) (now : Rat)
    (m : StateMachine) (pre : List Check) (c : Check) (suf : List Check) (t : StateTransition)
    (hchecks : (g.stateAt m.current_state).checks = pre ++ c :: suf)
    (hpre : runChecks ws pre = Except.ok none)
    (hc : execute_check ws c = Except.ok (some t)) :
    ∃ m' d, StateMachine.execute g ws now m = Except.ok (m', d)
      ∧ m'.current_state = t.dest ∧ m'.last_transition_time = now := by
  have hrc : runChecks ws (g.stateAt m.current_state).checks = Except.ok (some t) := by
    rw [hchecks, runChecks_append ws pre (c :: suf) hpre]
    simp only [runChecks, hc]
  unfold StateMachine.execute
  simp only [execute_state]
  rw [hrc]
  cases t <;> exact ⟨_, _, rfl, rfl, rfl⟩

/-! Concrete scenario for C5's witness: state 0 declares an unsatisfied
check, then a satisfied check into state 1, then a check that would trap
(an altitude condition against a boolean workspace value) if it were
evaluated. -/

def wsFlagFalse : DataWorkspace := fun _ => ObjectState.Flag false

def c5Unsat : Check := ⟨CheckData.ApogeeFlag ⟨true⟩, some (StateTransition.Abort 2)⟩

def c5Sat : Check := ⟨CheckData.ApogeeFlag ⟨false⟩, some (StateTransition.Transition 1)⟩

def c5Trap : Check := ⟨CheckData.Altitude (FloatCondition.GreaterThan 0), none⟩

def c5Graph : Graph :=
  ⟨[⟨0, [c5Unsat, c5Sat, c5Trap], [], none⟩, ⟨1, [], [], none⟩, ⟨2, [], [], none⟩]⟩

/-- Witness for C5: with checks `[c5Unsat, c5Sat, c5Trap]` the tick takes
`c5Sat`'s transition into state 1, even though the trailing check would
trap if it were evaluated. -/
theorem first_satisfied_check_wins_witness :
    ∃ m' d, StateMachine.execute c5Graph wsFlagFalse 7 machine0 = Except.ok (m', d)
      ∧ m'.current_state = 1 ∧ m'.last_transition_time = 7 :=
  first_satisfied_check_wins c5Graph wsFlagFalse 7 machine0
    [c5Unsat] c5Sat [c5Trap] (StateTransition.Transition 1) rfl rfl rfl

/-- Claim C10: the static capacity ceilings are exactly 16 states, 3
checks per state and 3 commands per state; every successfully
constructed graph satisfies the bounds, and a description exceeding them
is rejected at construction (yields `none`), never truncated or grown at
runtime. -/
theorem capacity_ceilings :
    MAX_STATES = 16 ∧ MAX_CHECKS_PER_STATE = 3 ∧ MAX_COMMANDS_PER_STATE = 3
    ∧ (∀ states g, mkGraph states = some g →
        g.states.length ≤ MAX_STATES ∧
        ∀ st ∈ g.states, st.checks.length ≤ MAX_CHECKS_PER_STATE ∧
          st.commands.length ≤ MAX_COMMANDS_PER_STATE)
    ∧ (∀ states, ¬ (states.length ≤ MAX_STATES ∧
        ∀ st ∈ states, st.checks.length ≤ MAX_CHECKS_PER_STATE ∧
          st.commands.length ≤ MAX_COMMANDS_PER_STATE) → mkGraph states = none) := by
  refine ⟨rfl, rfl, rfl, ?_, ?_⟩
  · intro states g h
    unfold mkGraph at h
    split at h
    · rename_i hcond
      cases h
      exact hcond
    · exact Option.noConfusion h
  · intro states hnot
    unfold mkGraph
    split
    · rename_i hcond
      exact absurd hcond hnot
    · rfl

/-- Witness for C10: a one-state graph constructs successfully and
satisfies all three ceilings. -/
theorem capacity_ceilings_witness :
    (Graph.mk [(⟨0, [], [], none⟩ : State)]).states.length ≤ MAX_STATES
    ∧ ∀ st ∈ (Graph.mk [(⟨0, [], [], none⟩ : State)]).states,
        st.checks.length ≤ MAX_CHECKS_PER_STATE
        ∧ st.commands.length ≤ MAX_COMMANDS_PER_STATE :=
  capacity_ceilings.2.2.2.1 [⟨0, [], [], none⟩] (Graph.mk [⟨0, [], [], none⟩]) rfl

/-- Helper: the `was_executed` cell after `execute_command` — it becomes
set exactly when it was clear and the delay has elapsed, and a set cell
stays set. -/
theorem execute_command_fst (elapsed : Rat) (b : Bool) (cmd : Command) :
    (execute_command elapsed b cmd).1 = (b || decide (cmd.delay ≤ elapsed)) := by
  unfold execute_command
  cases b <;> by_cases h : cmd.delay ≤ elapsed <;> simp [h, ge_iff_le]

/-- Helper: `execute_command` dispatches exactly when the cell was clear
and the delay has elapsed. -/
theorem execute_command_snd (elapsed : Rat) (b : Bool) (cmd : Command) :
    (execute_command elapsed b cmd).2
      = if b = false ∧ cmd.delay ≤ elapsed then [cmd.object] else [] := by
  unfold execute_command
  cases b <;> by_cases h : cmd.delay ≤ elapsed <;> simp [h, ge_iff_le]

/-- Helper: the command loop touches only the cells at indices ≥ its
starting index. -/
theorem runCommands_frame (elapsed : Rat) (s : Nat) :
    ∀ (cmds : List Command) (flags : Nat → Nat → Bool) (i0 s' k : Nat), k < i0 →
      (runCommands elapsed s flags i0 cmds).1 s' k = flags s' k := by
  intro cmds
  induction cmds with
  | nil => intro flags i0 s' k _; rfl
  | cons c rest ih =>
    intro flags i0 s' k hk
    have hne : ¬ (s' = s ∧ k = i0) := by rintro ⟨-, h⟩; omega
    simp only [runCommands]
    rw [ih _ (i0 + 1) s' k (Nat.lt_succ_of_lt hk)]
    simp [setFlag, hne]

/-- Helper: after the command loop, the cell of the j-th command equals
its old value or-ed with "the delay has elapsed". -/
theorem runCommands_flags (elapsed : Rat) (s : Nat) :
    ∀ (cmds : List Command) (flags : Nat → Nat → Bool) (i0 j : Nat) (cmd : Command),
      cmds.get? j = some cmd →
      (runCommands elapsed s flags i0 cmds).1 s (i0 + j)
        = (flags s (i0 + j) || decide (cmd.delay ≤ elapsed)) := by
  intro cmds
  induction cmds with
  | nil => intro flags i0 j cmd h; simp at h
  | cons c rest ih =>
    intro flags i0 j cmd h
    cases j with
    | zero =>
      obtain rfl : c = cmd := by simpa using h
      simp only [runCommands, Nat.add_zero]
      rw [runCommands_frame elapsed s rest _ (i0 + 1) s i0 (Nat.lt_succ_self i0)]
      simp [setFlag, execute_command_fst]
    | succ j' =>
      have hj : rest.get? j' = some cmd := by simpa using h
      have harith : i0 + (j' + 1) = (i0 + 1) + j' := by omega
      rw [harith]
      simp only [runCommands]
      rw [ih _ (i0 + 1) j' cmd hj]
      have hix : i0 + 1 + j' ≠ i0 := by omega
      simp [setFlag, hix]

/-- Helper: membership in an indexed enumeration gives the index bound
and the list entry at that index. -/
theorem mem_enumFrom_bound_get (cmds : List Command) (n : Nat) (p : Nat × Command)
    (h : p ∈ cmds.enumFrom n) : n ≤ p.1 ∧ cmds.get? (p.1 - n) = some p.2 := by
  obtain ⟨i, x⟩ := p
  have hx := List.mk_mem_enumFrom_iff_le_and_getElem?_sub.mp h
  exact ⟨hx.1, by rw [List.get?_eq_getElem?]; exact hx.2⟩

/-- Helper: the dispatches of one pass of the command loop, in closed
form for an arbitrary command list — the in-order concatenation, over
the commands indexed from the loop's starting cell, of each command's
dispatch (made exactly when its cell was clear and its delay has
elapsed). -/
theorem runCommands_snd (elapsed : Rat) (s : Nat) :
    ∀ (cmds : List Command) (flags : Nat → Nat → Bool) (i0 : Nat),
      (runCommands elapsed s flags i0 cmds).2
        = ((cmds.enumFrom i0).map (fun p =>
            if flags s p.1 = false ∧ p.2.delay ≤ elapsed
            then [p.2.object] else [])).flatten := by
  intro cmds
  induction cmds with
  | nil => intro flags i0; rfl
  | cons c rest ih =>
    intro flags i0
    have hcons : (c :: rest).enumFrom i0 = (i0, c) :: rest.enumFrom (i0 + 1) := rfl
    rw [hcons, List.map_cons, List.flatten_cons]
    simp only [runCommands]
    rw [execute_command_snd, ih (setFlag flags s i0 (execute_command elapsed (flags s i0) c).1)
      (i0 + 1)]
    congr 1
    apply congrArg List.flatten
    apply List.map_congr_left
    intro p hp
    obtain ⟨hle, -⟩ := mem_enumFrom_bound_get rest (i0 + 1) p hp
    have hne : p.1 ≠ i0 := by omega
    simp [setFlag, hne]

/-- Helper: a tick in a state with no checks and no timeout runs only
the command loop: no transition, no panic, current state and
last-transition time unchanged. -/
theorem execute_inactive (g : Graph) (ws : DataWorkspace) (now : Rat)
    (m : StateMachine) (s : Nat)
    (hs : m.current_state = s)
    (hchecks : (g.stateAt s).checks = [])
    (htimeout : (g.stateAt s).timeout = none) :
    StateMachine.execute g ws now m
      = Except.ok
        ({ m with flags :=
            (runCommands (now - m.last_transition_time) s m.flags 0 (g.stateAt s).commands).1 },
         (runCommands (now - m.last_transition_time) s m.flags 0 (g.stateAt s).commands).2) := by
  subst hs
  unfold StateMachine.execute
  simp only [execute_state, hchecks, htimeout, runChecks]

/-- Helper: a run of ticks through a state with no checks and no timeout
(one activation of that state): the state and last-transition time never
change, each command's cell ends up old-value or "some tick's elapsed
time reached the delay", and each tick's dispatch list is exactly the
in-order concatenation, over the state's commands, of the command's
actuator target when that command's cell started clear and the tick is
the first whose elapsed time reached the command's delay — and nothing
otherwise. -/
theorem runTicks_inactive (g : Graph) (ws : DataWorkspace) (s : Nat)
    (hchecks : (g.stateAt s).checks = [])
    (htimeout : (g.stateAt s).timeout = none) :
    ∀ (times : List Rat) (m : StateMachine), m.current_state = s →
      ∃ ds mf, runTicks g ws times m = Except.ok (ds, mf)
        ∧ ds.length = times.length
        ∧ mf.current_state = s
        ∧ mf.last_transition_time = m.last_transition_time
        ∧ (∀ j cmd, (g.stateAt s).commands.get? j = some cmd →
            mf.flags s j
              = (m.flags s j
                  || times.any fun t => decide (cmd.delay ≤ t - m.last_transition_time)))
        ∧ (∀ i, i < times.length →
            ds.getD i []
              = (((g.stateAt s).commands.enumFrom 0).map (fun p =>
                  if m.flags s p.1 = false
                      ∧ p.2.delay ≤ times.getD i 0 - m.last_transition_time
                      ∧ (∀ t ∈ times.take i, t - m.last_transition_time < p.2.delay)
                  then [p.2.object] else [])).flatten) := by
  intro times
  induction times with
  | nil =>
    intro m hm
    refine ⟨[], m, rfl, rfl, hm, rfl, by simp, ?_⟩
    intro i hi
    simp at hi
  | cons now rest ih =>
    intro m hm
    have hexec := execute_inactive g ws now m s hm hchecks htimeout
    set F := (runCommands (now - m.last_transition_time) s m.flags 0
      (g.stateAt s).commands).1 with hF
    set D := (runCommands (now - m.last_transition_time) s m.flags 0
      (g.stateAt s).commands).2 with hD
    set m' : StateMachine := { m with flags := F } with hm'
    have hm'cur : m'.current_state = s := hm
    obtain ⟨ds', mf, hrun', hlen, hcur, hlast, hflags, hdisp⟩ := ih m' hm'cur
    have hlast' : m'.last_transition_time = m.last_transition_time := rfl
    refine ⟨D :: ds', mf, ?_, by simp [hlen], hcur, by rw [hlast], ?_, ?_⟩
    · simp only [runTicks, hexec, hrun']
    · intro j cmd hj
      have h1 : mf.flags s j
          = (m'.flags s j || rest.any fun t => decide (cmd.delay ≤ t - m.last_transition_time)) := by
        rw [hflags j cmd hj, hlast']
      have h2 : m'.flags s j
          = (m.flags s j || decide (cmd.delay ≤ now - m.last_transition_time)) := by
        have := runCommands_flags (now - m.last_transition_time) s (g.stateAt s).commands
          m.flags 0 j cmd hj
        simpa using this
      rw [h1, h2, List.any_cons, Bool.or_assoc]
    · intro i hi
      cases i with
      | zero =>
        show D = _
        rw [hD, runCommands_snd, List.getD_cons_zero]
        apply congrArg List.flatten
        apply List.map_congr_left
        intro p hp
        dsimp only
        have hiff : (m.flags s p.1 = false ∧ p.2.delay ≤ now - m.last_transition_time)
            ↔ (m.flags s p.1 = false
                ∧ p.2.delay ≤ now - m.last_transition_time
                ∧ (∀ t ∈ (now :: rest).take 0, t - m.last_transition_time < p.2.delay)) := by
          simp
        exact if_congr hiff rfl rfl
      | succ i' =>
        have hi' : i' < rest.length := by
          simpa using Nat.lt_of_succ_lt_succ (by simpa using hi)
        have hstep := hdisp i' hi'
        show ds'.getD i' [] = _
        rw [hstep]
        apply congrArg List.flatten
        apply List.map_congr_left
        intro p hp
        obtain ⟨-, hget⟩ := mem_enumFrom_bound_get (g.stateAt s).commands 0 p hp
        rw [Nat.sub_zero] at hget
        have hflagp : m'.flags s p.1
            = (m.flags s p.1 || decide (p.2.delay ≤ now - m.last_transition_time)) := by
          have := runCommands_flags (now - m.last_transition_time) s (g.stateAt s).commands
            m.flags 0 p.1 p.2 hget
          simpa using this
        dsimp only
        have hiff : (m'.flags s p.1 = false
              ∧ p.2.delay ≤ rest.getD i' 0 - m'.last_transition_time
              ∧ (∀ t ∈ rest.take i', t - m'.last_transition_time < p.2.delay))
            ↔ (m.flags s p.1 = false
              ∧ p.2.delay ≤ (now :: rest).getD (i' + 1) 0 - m.last_transition_time
              ∧ (∀ t ∈ (now :: rest).take (i' + 1), t - m.last_transition_time < p.2.delay)) := by
          rw [hlast', hflagp, List.getD_cons_succ, List.take_succ_cons, List.forall_mem_cons,
            Bool.or_eq_false_iff, decide_eq_false_iff_not, not_le]
          tauto
        exact if_congr hiff rfl rfl

/-- Claim C6, amended: within one activation — a run of ticks through a
state the machine never leaves (no checks, no timeout) — provided the
one-shot cells of the state's commands are all clear when the activation
begins, every command of the state behaves exactly as claimed: its cell
becomes set iff some tick's elapsed time since the last transition
reached its delay, and each tick's dispatch list is precisely the
in-declared-order concatenation of the targets of those commands for
which this tick is the first whose elapsed time reached their delay — so
each command is dispatched on its first qualifying tick, not on any
earlier tick, and never again afterwards in the activation.  The
amendment is the "cells start clear" hypothesis: because transitions
never reset the cells (claim C2), an activation entered through a cyclic
transition starts with cells already set and those commands are then
never dispatched, so the claim as stated fails on re-entered activations
(see the counterexample). -/
theorem command_fires_once_per_activation (g : Graph) (ws : DataWorkspace)
    (times : List Rat) (m : StateMachine) (s : Nat)
    (hs : m.current_state = s)
    (hchecks : (g.stateAt s).checks = [])
    (htimeout : (g.stateAt s).timeout = none)
    (hflags0 : ∀ j cmd, (g.stateAt s).commands.get? j = some cmd → m.flags s j = false) :
    ∃ ds mf, runTicks g ws times m = Except.ok (ds, mf)
      ∧ ds.length = times.length
      ∧ mf.current_state = s
      ∧ mf.last_transition_time = m.last_transition_time
      ∧ (∀ j cmd, (g.stateAt s).commands.get? j = some cmd →
          mf.flags s j = (times.any fun t => decide (cmd.delay ≤ t - m.last_transition_time)))
      ∧ (∀ i, i < times.length →
          ds.getD i []
            = (((g.stateAt s).commands.enumFrom 0).map (fun p =>
                if p.2.delay ≤ times.getD i 0 - m.last_transition_time
                    ∧ (∀ t ∈ times.take i, t - m.last_transition_time < p.2.delay)
                then [p.2.object] else [])).flatten) := by
  obtain ⟨ds, mf, h1, h2, h3, h4, h5, h6⟩ :=
    runTicks_inactive g ws s hchecks htimeout times m hs
  refine ⟨ds, mf, h1, h2, h3, h4, ?_, ?_⟩
  · intro j cmd hj
    rw [h5 j cmd hj, hflags0 j cmd hj, Bool.false_or]
  · intro i hi
    rw [h6 i hi]
    apply congrArg List.flatten
    apply List.map_congr_left
    intro p hp
    obtain ⟨-, hget⟩ := mem_enumFrom_bound_get (g.stateAt s).commands 0 p hp
    rw [Nat.sub_zero] at hget
    have h0 : m.flags s p.1 = false := hflags0 p.1 p.2 hget
    have hiff : (m.flags s p.1 = false
          ∧ p.2.delay ≤ times.getD i 0 - m.last_transition_time
          ∧ (∀ t ∈ times.take i, t - m.last_transition_time < p.2.delay))
        ↔ (p.2.delay ≤ times.getD i 0 - m.last_transition_time
          ∧ (∀ t ∈ times.take i, t - m.last_transition_time < p.2.delay)) := by
      rw [h0]
      simp
    exact if_congr hiff rfl rfl

/-! Concrete scenario for C6's witness: one state with two commands — a
delay-1 Beacon command followed by a delay-0 data-rate command — no
checks, no timeout; ticks at t = 0, 1, 2.  The delay-0 command fires
alone at t = 0 and the delay-1 command alone at t = 1; the t = 2 tick
dispatches nothing. -/

def c6Command : Command := ⟨CommandObject.Beacon true, 1⟩

def c6Command0 : Command := ⟨CommandObject.DataRate 50, 0⟩

def c6Graph : Graph := ⟨[⟨0, [], [c6Command, c6Command0], none⟩]⟩

/-- Witness for C6 (amended), at a two-command state: both cells end
set, and each tick's dispatch list is the concatenation formula — the
delay-0 command's target on the first tick, the delay-1 command's target
on the second, nothing on the third. -/
theorem command_fires_once_per_activation_witness :
    ∃ ds mf, runTicks c6Graph wsFlagFalse [0, 1, 2] machine0 = Except.ok (ds, mf)
      ∧ ds.length = ([0, 1, 2] : List Rat).length
      ∧ mf.current_state = 0
      ∧ mf.last_transition_time = machine0.last_transition_time
      ∧ (∀ j cmd, (c6Graph.stateAt 0).commands.get? j = some cmd →
          mf.flags 0 j = (([0, 1, 2] : List Rat).any fun t =>
            decide (cmd.delay ≤ t - machine0.last_transition_time)))
      ∧ (∀ i, i < ([0, 1, 2] : List Rat).length →
          ds.getD i []
            = (((c6Graph.stateAt 0).commands.enumFrom 0).map (fun p =>
                if p.2.delay ≤ ([0, 1, 2] : List Rat).getD i 0 - machine0.last_transition_time
                    ∧ (∀ t ∈ ([0, 1, 2] : List Rat).take i,
                        t - machine0.last_transition_time < p.2.delay)
                then [p.2.object] else [])).flatten) :=
  command_fires_once_per_activation c6Graph wsFlagFalse [0, 1, 2] machine0 0
    rfl rfl rfl (fun _ _ _ => rfl)

/-- Counterexample for C6 as stated: in the loop scenario the first tick
dispatches the delay-0 command and takes the cyclic transition back into
state 0; on the next tick the elapsed time since the last transition
(1 second) again reaches the delay — per the claim the command of the
current (re-entered) state should be dispatched on this first tick of
the new activation — yet nothing is dispatched, because its one-shot
cell was never cleared. -/
theorem command_not_redispatched_after_reentry :
    StateMachine.execute loopGraph wsFlagTrue 0 machine0
      = Except.ok (loopM1, [CommandObject.Beacon true])
    ∧ loopCommand.delay ≤ (1:Rat) - loopM1.last_transition_time
    ∧ (StateMachine.execute loopGraph wsFlagTrue 1 loopM1).map Prod.snd = Except.ok [] := by
  refine ⟨?_, ?_, ?_⟩
  · simp [StateMachine.execute, execute_state, runCommands, execute_command, runChecks,
      execute_check, checkSatisfied, Graph.stateAt, loopGraph, loopState, loopCheck,
      loopCommand, wsFlagTrue, machine0, loopM1, CheckData.kind, StateMachine.transition]
  · norm_num [loopCommand, loopM1]
  · simp [StateMachine.execute, execute_state, runCommands, execute_command, runChecks,
      execute_check, checkSatisfied, Graph.stateAt, loopGraph, loopState, loopCheck,
      loopCommand, wsFlagTrue, loopM1, CheckData.kind, StateMachine.transition, setFlag,
      Except.map]
